import Mathlib

/-!
Shallow embedding of the Solana Anchor voting program
(`src/programs/voting/src/lib.rs`).

The program keeps three record kinds in the host's keyed storage, each at a
program-derived address (PDA):

* `Poll` at seeds `[b"poll", poll_id.to_le_bytes()]` — `init_if_needed`;
* `Candidate` at seeds `[b"candidate", poll_id.to_le_bytes(), signer]` — `init`;
* `VoteRecord` at seeds `[b"vote", poll_id.to_le_bytes(), signer]` — `init`.

The embedding models the storage as a map from flattened seed bytes to typed
records, and each instruction as a function from a state (plus the
authenticated signer and the instruction arguments) to `Except Err Chain`.
Anchor's account machinery, declared by the `#[derive(Accounts)]` context
structs, is embedded by its standard semantics, in the struct's field order:

* a non-`init` `Account<'info, T>` field requires an initialized account of
  type `T` at the derived address (`AccountNotInit` when the slot is empty,
  `DiscriminatorMismatch` when it holds a record of another type);
* an `init` field requires the derived slot to be empty (`AlreadyExists`
  otherwise — the host-level "account already in use" failure);
* `init_if_needed` creates the slot when empty and otherwise revalidates the
  existing record's type, then lets the handler overwrite the fields;
* a `#[max_len(280)]` string field is allocated 280 bytes of content space,
  so persisting a longer string fails serialization (`LengthViolation`);
* any failure aborts the whole request atomically: no state change.

Strings and public keys are byte sequences (`List Nat`); `u64` values are
`Nat` with explicit `< 2 ^ 64` bounds where the 8-byte little-endian seed
encoding must be injective.
-/

namespace VotingModel

/-- A public key: 32 bytes in the host, modelled as a byte sequence. -/
abbrev Pubkey := List Nat

/-- A storage address: the flattened seed bytes that determine the PDA. -/
abbrev Addr := List Nat

/-- The bytes of the namespace tag `b"poll"`. -/
def pollTag : List Nat := [112, 111, 108, 108]

/-- The bytes of the namespace tag `b"candidate"`. -/
def candidateTag : List Nat := [99, 97, 110, 100, 105, 100, 97, 116, 101]

/-- The bytes of the namespace tag `b"vote"`. -/
def voteTag : List Nat := [118, 111, 116, 101]

/-- `u64::to_le_bytes`: the 8 little-endian bytes of `n % 2 ^ 64`. -/
def u64le (n : Nat) : List Nat :=
  [n % 256, n / 256 % 256, n / 65536 % 256, n / 16777216 % 256,
   n / 4294967296 % 256, n / 1099511627776 % 256,
   n / 281474976710656 % 256, n / 72057594037927936 % 256]

/-- The address derivation scheme: a namespace tag followed by the
concatenated key parts, as Solana concatenates PDA seeds. -/
def deriveAddr (tag : List Nat) (parts : List (List Nat)) : Addr :=
  tag ++ parts.foldr (fun a b => a ++ b) []

/-- Address of the `Poll` record for `poll_id`. -/
def pollAddr (poll_id : Nat) : Addr :=
  deriveAddr pollTag [u64le poll_id]

/-- Address of the `Candidate` record of `owner` in poll `poll_id`. -/
def candAddr (poll_id : Nat) (owner : Pubkey) : Addr :=
  deriveAddr candidateTag [u64le poll_id, owner]

/-- Address of the `VoteRecord` of `voter` in poll `poll_id`. -/
def voteAddr (poll_id : Nat) (voter : Pubkey) : Addr :=
  deriveAddr voteTag [u64le poll_id, voter]

/-- The `Poll` account data (struct `Poll` in the source). -/
structure Poll where
  poll_id : Nat
  description : List Nat
  candidates : Nat
  start_time : Nat
  end_time : Nat
deriving DecidableEq

/-- The `Candidate` account data (struct `Candidate` in the source). -/
structure Candidate where
  candidate_id : Pubkey
  name : List Nat
  description : List Nat
deriving DecidableEq

/-- The `VoteRecord` account data (struct `VoteRecord` in the source). -/
structure VoteRecord where
  voter : Pubkey
  poll_id : Nat
  candidate : Pubkey
deriving DecidableEq

/-- A typed record occupying one storage slot (the Anchor discriminator
distinguishes the three account types). -/
inductive Record where
  | poll (p : Poll)
  | candidate (c : Candidate)
  | vote (v : VoteRecord)
deriving DecidableEq

/-- The errors a request can abort with. `LengthViolation` is the
serialization failure of a string beyond its `#[max_len]` space,
`AlreadyExists` the `init` failure on an occupied slot, `AccountNotInit`
Anchor's account-not-initialized failure for a missing non-`init` account,
`DiscriminatorMismatch` its wrong-account-type failure. -/
inductive Err where
  | LengthViolation
  | AlreadyExists
  | AccountNotInit
  | DiscriminatorMismatch
deriving DecidableEq

/-- The keyed storage: each address holds at most one typed record. -/
abbrev Chain := Addr → Option Record

/-- The storage with no record at any address. -/
def emptyChain : Chain := fun _ => none

/-- Write record `r` at address `a`. -/
def setSlot (s : Chain) (a : Addr) (r : Record) : Chain :=
  fun x => if x = a then some r else s x

/-- Instruction `initialize_poll` with its `InitializePoll` context: the
`poll` account is `init_if_needed` at `pollAddr poll_id`, so an existing
`Poll` record is overwritten (and an existing record of another type is a
discriminator mismatch); the handler stores the supplied fields, and a
description beyond 280 bytes fails serialization. -/
def initialize_poll (s : Chain) (_signer : Pubkey) (poll_id : Nat)
    (description : List Nat) (candidates start_time end_time : Nat) :
    Except Err Chain :=
  match s (pollAddr poll_id) with
  | some (Record.candidate _) => .error .DiscriminatorMismatch
  | some (Record.vote _) => .error .DiscriminatorMismatch
  | _ =>
    if 280 < description.length then .error .LengthViolation
    else .ok (setSlot s (pollAddr poll_id)
      (Record.poll ⟨poll_id, description, candidates, start_time, end_time⟩))

/-- Instruction `initialize_candidate` with its `InitializeCandidate`
context: the `poll` account (field order before `candidate`) must hold an
initialized `Poll`; the `candidate` account is strict `init` at
`candAddr poll_id signer`; the handler stores
`candidate_id = signer`, `name`, `description`, each string bounded by its
280-byte space. -/
def initialize_candidate (s : Chain) (signer : Pubkey) (poll_id : Nat)
    (name description : List Nat) : Except Err Chain :=
  match s (pollAddr poll_id) with
  | none => .error .AccountNotInit
  | some (Record.poll _) =>
    match s (candAddr poll_id signer) with
    | some _ => .error .AlreadyExists
    | none =>
      if 280 < name.length then .error .LengthViolation
      else if 280 < description.length then .error .LengthViolation
      else .ok (setSlot s (candAddr poll_id signer)
        (Record.candidate ⟨signer, name, description⟩))
  | some _ => .error .DiscriminatorMismatch

/-- Instruction `vote` with its `Vote` context: the `poll` account must hold
an initialized `Poll`, the `candidate` account at
`candAddr poll_id candidate_id` must hold an initialized `Candidate`
(context field order: `signer`, `poll`, `candidate`, `vote`), and the `vote`
account is strict `init` at `voteAddr poll_id signer`; the handler stores
`voter = signer`, `poll_id`, `candidate = candidate_id`. -/
def vote (s : Chain) (signer : Pubkey) (poll_id : Nat) (candidate_id : Pubkey) :
    Except Err Chain :=
  match s (pollAddr poll_id) with
  | none => .error .AccountNotInit
  | some (Record.poll _) =>
    match s (candAddr poll_id candidate_id) with
    | none => .error .AccountNotInit
    | some (Record.candidate _) =>
      match s (voteAddr poll_id signer) with
      | some _ => .error .AlreadyExists
      | none => .ok (setSlot s (voteAddr poll_id signer)
          (Record.vote ⟨signer, poll_id, candidate_id⟩))
    | some _ => .error .DiscriminatorMismatch
  | some _ => .error .DiscriminatorMismatch

/-- The storage after a request: its new state on success, the unchanged
state on failure (the host applies a request atomically). -/
def resultState (s : Chain) (r : Except Err Chain) : Chain :=
  match r with
  | .ok t => t
  | .error _ => s

/-- Record contents agree with the logical key of the slot they occupy:
every stored Candidate's `candidate_id` is the identity in its address
seeds, and every stored VoteRecord's `voter` and `poll_id` are the identity
and poll id in its address seeds (poll ids range over `u64`). -/
def goodState (s : Chain) : Prop :=
  (∀ (pid : Nat) (o : Pubkey) (c : Candidate), pid < 2 ^ 64 →
    s (candAddr pid o) = some (Record.candidate c) → c.candidate_id = o)
  ∧ (∀ (pid : Nat) (v : Pubkey) (vr : VoteRecord), pid < 2 ^ 64 →
    s (voteAddr pid v) = some (Record.vote vr) →
    vr.voter = v ∧ vr.poll_id = pid)

/-- The storage states the program can produce: the empty storage, and the
atomic result of any request on a reachable state. -/
inductive Reachable : Chain → Prop where
  | empty : Reachable emptyChain
  | createPoll (s : Chain) (sg : Pubkey) (pid : Nat) (d : List Nat)
      (cand st et : Nat) : Reachable s →
      Reachable (resultState s (initialize_poll s sg pid d cand st et))
  | registerCand (s : Chain) (sg : Pubkey) (pid : Nat) (n d : List Nat) :
      Reachable s →
      Reachable (resultState s (initialize_candidate s sg pid n d))
  | castVote (s : Chain) (sg : Pubkey) (pid : Nat) (cid : Pubkey) :
      Reachable s → Reachable (resultState s (vote s sg pid cid))

/-- A concrete storage holding one Poll record (poll id 1). -/
def pollOneChain : Chain :=
  setSlot emptyChain (pollAddr 1) (Record.poll ⟨1, [], 2, 1000, 2000⟩)

/-- `pollOneChain` with the Candidate record of identity `[2]` in poll 1. -/
def candChain : Chain :=
  setSlot pollOneChain (candAddr 1 [2]) (Record.candidate ⟨[2], [65], [66]⟩)

/-- `candChain` after voter `[7]` voted for candidate `[2]` in poll 1. -/
def votedChain : Chain :=
  setSlot candChain (voteAddr 1 [7]) (Record.vote ⟨[7], 1, [2]⟩)

/-! Basic storage lemmas. -/

theorem setSlot_same (s : Chain) (a : Addr) (r : Record) :
    setSlot s a r a = some r := by
  simp [setSlot]

theorem setSlot_other (s : Chain) (a a' : Addr) (r : Record) (h : a' ≠ a) :
    setSlot s a r a' = s a' := by
  simp [setSlot, h]

theorem setSlot_comm (s : Chain) (a b : Addr) (r r' : Record) (hab : a ≠ b) :
    setSlot (setSlot s a r) b r' = setSlot (setSlot s b r') a r := by
  funext x
  by_cases hxa : x = a
  · subst hxa
    simp [setSlot, hab]
  · by_cases hxb : x = b <;> simp [setSlot, hxa, hxb, Ne.symm hab]

/-! Injectivity and separation of the derived addresses. -/

theorem u64le_length (n : Nat) : (u64le n).length = 8 := by
  simp [u64le]

theorem u64le_inj {p q : Nat} (hp : p < 2 ^ 64) (hq : q < 2 ^ 64)
    (h : u64le p = u64le q) : p = q := by
  have hb : (2 : Nat) ^ 64 = 18446744073709551616 := by norm_num
  rw [hb] at hp hq
  simp only [u64le, List.cons.injEq, and_true] at h
  omega

theorem pollAddr_inj {p q : Nat} (hp : p < 2 ^ 64) (hq : q < 2 ^ 64)
    (h : pollAddr p = pollAddr q) : p = q := by
  simp only [pollAddr, deriveAddr, pollTag, List.foldr, List.cons_append,
    List.nil_append, List.cons.injEq, true_and] at h
  exact u64le_inj hp hq (by simpa using List.append_inj h rfl |>.1)

theorem candAddr_inj {p q : Nat} {o o' : Pubkey} (hp : p < 2 ^ 64)
    (hq : q < 2 ^ 64) (h : candAddr p o = candAddr q o') : p = q ∧ o = o' := by
  simp only [candAddr, deriveAddr, candidateTag, List.foldr, List.cons_append,
    List.nil_append, List.append_nil, List.cons.injEq, true_and] at h
  have hlen : (u64le p).length = (u64le q).length := by
    simp [u64le_length]
  obtain ⟨h1, h2⟩ := List.append_inj h hlen
  exact ⟨u64le_inj hp hq h1, h2⟩

theorem voteAddr_inj {p q : Nat} {v v' : Pubkey} (hp : p < 2 ^ 64)
    (hq : q < 2 ^ 64) (h : voteAddr p v = voteAddr q v') : p = q ∧ v = v' := by
  simp only [voteAddr, deriveAddr, voteTag, List.foldr, List.cons_append,
    List.nil_append, List.append_nil, List.cons.injEq, true_and] at h
  have hlen : (u64le p).length = (u64le q).length := by
    simp [u64le_length]
  obtain ⟨h1, h2⟩ := List.append_inj h hlen
  exact ⟨u64le_inj hp hq h1, h2⟩

theorem pollAddr_ne_candAddr (p q : Nat) (o : Pubkey) :
    pollAddr p ≠ candAddr q o := by
  simp [pollAddr, candAddr, deriveAddr, pollTag, candidateTag]

theorem pollAddr_ne_voteAddr (p q : Nat) (v : Pubkey) :
    pollAddr p ≠ voteAddr q v := by
  simp [pollAddr, voteAddr, deriveAddr, pollTag, voteTag]

theorem candAddr_ne_voteAddr (p q : Nat) (o v : Pubkey) :
    candAddr p o ≠ voteAddr q v := by
  simp [candAddr, voteAddr, deriveAddr, candidateTag, voteTag]

/-! What a successful request entails. -/

theorem initialize_poll_ok {s : Chain} {sg : Pubkey} {pid cand st et : Nat}
    {d : List Nat} {t : Chain}
    (h : initialize_poll s sg pid d cand st et = .ok t) :
    d.length ≤ 280 ∧
      t = setSlot s (pollAddr pid) (Record.poll ⟨pid, d, cand, st, et⟩) := by
  rcases h1 : s (pollAddr pid) with _ | r
  · simp only [initialize_poll, h1] at h
    by_cases hd : 280 < d.length
    · simp [hd] at h
    · simp [hd] at h
      exact ⟨by omega, h.symm⟩
  · cases r with
    | poll p =>
      simp only [initialize_poll, h1] at h
      by_cases hd : 280 < d.length
      · simp [hd] at h
      · simp [hd] at h
        exact ⟨by omega, h.symm⟩
    | candidate c => simp [initialize_poll, h1] at h
    | vote v => simp [initialize_poll, h1] at h

theorem initialize_candidate_ok {s : Chain} {sg : Pubkey} {pid : Nat}
    {n d : List Nat} {t : Chain}
    (h : initialize_candidate s sg pid n d = .ok t) :
    (∃ p, s (pollAddr pid) = some (Record.poll p)) ∧
      s (candAddr pid sg) = none ∧ n.length ≤ 280 ∧ d.length ≤ 280 ∧
      t = setSlot s (candAddr pid sg) (Record.candidate ⟨sg, n, d⟩) := by
  rcases h1 : s (pollAddr pid) with _ | r
  · simp [initialize_candidate, h1] at h
  · cases r with
    | poll p =>
      rcases h2 : s (candAddr pid sg) with _ | r2
      · simp only [initialize_candidate, h1, h2] at h
        by_cases hn : 280 < n.length
        · simp [hn] at h
        · by_cases hd : 280 < d.length
          · simp [hn, hd] at h
          · simp [hn, hd] at h
            exact ⟨⟨p, rfl⟩, rfl, by omega, by omega, h.symm⟩
      · simp [initialize_candidate, h1, h2] at h
    | candidate c => simp [initialize_candidate, h1] at h
    | vote v => simp [initialize_candidate, h1] at h

theorem vote_ok {s : Chain} {sg cid : Pubkey} {pid : Nat} {t : Chain}
    (h : vote s sg pid cid = .ok t) :
    (∃ p, s (pollAddr pid) = some (Record.poll p)) ∧
      (∃ c, s (candAddr pid cid) = some (Record.candidate c)) ∧
      s (voteAddr pid sg) = none ∧
      t = setSlot s (voteAddr pid sg) (Record.vote ⟨sg, pid, cid⟩) := by
  rcases h1 : s (pollAddr pid) with _ | r
  · simp [vote, h1] at h
  · cases r with
    | poll p =>
      rcases h2 : s (candAddr pid cid) with _ | r2
      · simp [vote, h1, h2] at h
      · cases r2 with
        | candidate c =>
          rcases h3 : s (voteAddr pid sg) with _ | r3
          · simp only [vote, h1, h2, h3] at h
            simp at h
            exact ⟨⟨p, rfl⟩, ⟨c, rfl⟩, rfl, h.symm⟩
          · simp [vote, h1, h2, h3] at h
        | poll p2 => simp [vote, h1, h2] at h
        | vote v2 => simp [vote, h1, h2] at h
    | candidate c => simp [vote, h1] at h
    | vote v => simp [vote, h1] at h

/-! Reachable states keep each namespace's slots well-typed, and the
key-agreement invariant is preserved by single writes. -/

theorem reachable_poll_slot_typed {s : Chain} (hs : Reachable s) (pid : Nat) :
    s (pollAddr pid) = none ∨
      ∃ p, s (pollAddr pid) = some (Record.poll p) := by
  induction hs with
  | empty => exact Or.inl rfl
  | createPoll s sg pid' d cand st et hs ih =>
    rcases h : initialize_poll s sg pid' d cand st et with e | t
    · simpa [resultState, h] using ih
    · simp only [resultState, h]
      rw [(initialize_poll_ok h).2]
      by_cases he : pollAddr pid = pollAddr pid'
      · rw [he, setSlot_same]
        exact Or.inr ⟨_, rfl⟩
      · rw [setSlot_other _ _ _ _ he]
        exact ih
  | registerCand s sg pid' n d hs ih =>
    rcases h : initialize_candidate s sg pid' n d with e | t
    · simpa [resultState, h] using ih
    · simp only [resultState, h]
      rw [(initialize_candidate_ok h).2.2.2.2,
        setSlot_other _ _ _ _ (pollAddr_ne_candAddr pid pid' sg)]
      exact ih
  | castVote s sg pid' cid hs ih =>
    rcases h : vote s sg pid' cid with e | t
    · simpa [resultState, h] using ih
    · simp only [resultState, h]
      rw [(vote_ok h).2.2.2,
        setSlot_other _ _ _ _ (pollAddr_ne_voteAddr pid pid' sg)]
      exact ih

theorem goodState_setSlot_pollAddr (s : Chain) (pid : Nat) (r : Record)
    (hg : goodState s) : goodState (setSlot s (pollAddr pid) r) := by
  constructor
  · intro pid' o c hpid' hslot
    rw [setSlot_other _ _ _ _ (Ne.symm (pollAddr_ne_candAddr pid pid' o))]
      at hslot
    exact hg.1 pid' o c hpid' hslot
  · intro pid' v vr hpid' hslot
    rw [setSlot_other _ _ _ _ (Ne.symm (pollAddr_ne_voteAddr pid pid' v))]
      at hslot
    exact hg.2 pid' v vr hpid' hslot

theorem goodState_setSlot_candAddr (s : Chain) (pid : Nat) (sg : Pubkey)
    (n d : List Nat) (hpid : pid < 2 ^ 64) (hg : goodState s) :
    goodState (setSlot s (candAddr pid sg) (Record.candidate ⟨sg, n, d⟩)) := by
  constructor
  · intro pid' o c hpid' hslot
    by_cases he : candAddr pid' o = candAddr pid sg
    · obtain ⟨hpe, hoe⟩ := candAddr_inj hpid' hpid he
      rw [he, setSlot_same] at hslot
      simp only [Option.some.injEq] at hslot
      injection hslot with h
      subst hoe
      rw [← h]
    · rw [setSlot_other _ _ _ _ he] at hslot
      exact hg.1 pid' o c hpid' hslot
  · intro pid' v vr hpid' hslot
    rw [setSlot_other _ _ _ _ (Ne.symm (candAddr_ne_voteAddr pid pid' sg v))]
      at hslot
    exact hg.2 pid' v vr hpid' hslot

theorem goodState_setSlot_voteAddr (s : Chain) (pid : Nat) (sg cid : Pubkey)
    (hpid : pid < 2 ^ 64) (hg : goodState s) :
    goodState (setSlot s (voteAddr pid sg) (Record.vote ⟨sg, pid, cid⟩)) := by
  constructor
  · intro pid' o c hpid' hslot
    rw [setSlot_other _ _ _ _ (candAddr_ne_voteAddr pid' pid o sg)] at hslot
    exact hg.1 pid' o c hpid' hslot
  · intro pid' v vr hpid' hslot
    by_cases he : voteAddr pid' v = voteAddr pid sg
    · obtain ⟨hpe, hve⟩ := voteAddr_inj hpid' hpid he
      rw [he, setSlot_same] at hslot
      simp only [Option.some.injEq] at hslot
      injection hslot with h
      subst hpe hve
      rw [← h]
      exact ⟨rfl, rfl⟩
    · rw [setSlot_other _ _ _ _ he] at hslot
      exact hg.2 pid' v vr hpid' hslot

/-! The claims. -/

/-- C8: the address derivation used by the three handlers is deterministic
(the same logical key always derives the same address) and injective on
logical keys: distinct poll ids, distinct (poll id, identity) pairs, and
keys of different namespaces ("poll", "candidate", "vote") always derive
distinct addresses. -/
theorem derivation_deterministic_and_injective :
    (∀ tag parts, deriveAddr tag parts = deriveAddr tag parts)
    ∧ (∀ p q, p < 2 ^ 64 → q < 2 ^ 64 → pollAddr p = pollAddr q → p = q)
    ∧ (∀ p q o o', p < 2 ^ 64 → q < 2 ^ 64 →
        candAddr p o = candAddr q o' → p = q ∧ o = o')
    ∧ (∀ p q v v', p < 2 ^ 64 → q < 2 ^ 64 →
        voteAddr p v = voteAddr q v' → p = q ∧ v = v')
    ∧ (∀ p q o, pollAddr p ≠ candAddr q o)
    ∧ (∀ p q v, pollAddr p ≠ voteAddr q v)
    ∧ (∀ p q o v, candAddr p o ≠ voteAddr q v) :=
  ⟨fun _ _ => rfl, fun _ _ hp hq h => pollAddr_inj hp hq h,
    fun _ _ _ _ hp hq h => candAddr_inj hp hq h,
    fun _ _ _ _ hp hq h => voteAddr_inj hp hq h,
    pollAddr_ne_candAddr, pollAddr_ne_voteAddr, candAddr_ne_voteAddr⟩

/-- Witness for C8 at concrete keys. -/
theorem derivation_deterministic_and_injective_w :
    (1 : Nat) < 2 ^ 64 ∧ ((1 : Nat) = 1 ∧ ([5] : Pubkey) = [5]) :=
  ⟨by decide, derivation_deterministic_and_injective.2.2.1 1 1 [5] [5]
    (by decide) (by decide) rfl⟩

/-- C3: after a successful CreatePoll the stored Poll record holds exactly
the supplied poll id, description, candidate count, start time and end time;
and when a Poll record already exists at the poll id, CreatePoll (with a
description within bounds) succeeds and overwrites the fields rather than
failing. -/
theorem create_poll_stores_supplied_fields (s : Chain) (sg : Pubkey)
    (pid cand st et : Nat) (d : List Nat) :
    (∀ t, initialize_poll s sg pid d cand st et = .ok t →
      t (pollAddr pid) = some (Record.poll ⟨pid, d, cand, st, et⟩))
    ∧ (∀ p0, s (pollAddr pid) = some (Record.poll p0) → d.length ≤ 280 →
        initialize_poll s sg pid d cand st et =
          .ok (setSlot s (pollAddr pid)
            (Record.poll ⟨pid, d, cand, st, et⟩))) := by
  constructor
  · intro t ht
    rw [(initialize_poll_ok ht).2, setSlot_same]
  · intro p0 h0 hd
    simp [initialize_poll, h0, Nat.not_lt.mpr hd]

/-- Witness for C3: re-creating poll 1 over an existing Poll record succeeds
and the slot holds exactly the supplied fields. -/
theorem create_poll_stores_supplied_fields_w :
    pollOneChain (pollAddr 1) = some (Record.poll ⟨1, [], 2, 1000, 2000⟩)
    ∧ ([65] : List Nat).length ≤ 280
    ∧ initialize_poll pollOneChain [3] 1 [65] 2 1000 2000 =
        .ok (setSlot pollOneChain (pollAddr 1)
          (Record.poll ⟨1, [65], 2, 1000, 2000⟩)) :=
  ⟨rfl, by decide,
    (create_poll_stores_supplied_fields pollOneChain [3] 1 2 1000 2000 [65]).2
      ⟨1, [], 2, 1000, 2000⟩ rfl (by decide)⟩

/-- C4: in any reachable state, CreatePoll with a description longer than
280 bytes is rejected with LengthViolation and the storage is unchanged (no
Poll record is written). -/
theorem create_poll_rejects_long_description (s : Chain) (sg : Pubkey)
    (pid cand st et : Nat) (d : List Nat)
    (hs : Reachable s) (hd : 280 < d.length) :
    initialize_poll s sg pid d cand st et = .error .LengthViolation
    ∧ resultState s (initialize_poll s sg pid d cand st et) = s := by
  rcases reachable_poll_slot_typed hs pid with h0 | ⟨p, h0⟩ <;>
    simp [initialize_poll, h0, hd, resultState]

set_option maxRecDepth 4000 in
/-- Witness for C4 at a description of length 281. -/
theorem create_poll_rejects_long_description_w :
    280 < (List.replicate 281 0).length
    ∧ initialize_poll emptyChain [3] 1 (List.replicate 281 0) 2 1000 2000 =
        .error .LengthViolation
    ∧ resultState emptyChain
        (initialize_poll emptyChain [3] 1 (List.replicate 281 0) 2 1000 2000) =
        emptyChain :=
  ⟨by simp,
    (create_poll_rejects_long_description emptyChain [3] 1 2 1000 2000
      (List.replicate 281 0) Reachable.empty (by simp)).1,
    (create_poll_rejects_long_description emptyChain [3] 1 2 1000 2000
      (List.replicate 281 0) Reachable.empty (by simp)).2⟩

/-- C2 counterexample: with no Poll record at poll id 1 (the empty storage),
identity `[1]`'s first RegisterCandidate does not create the Candidate
record but fails with AccountNotInit, its second call fails with
AccountNotInit as well — not AlreadyExists — and no Candidate record is
ever stored. -/
theorem register_candidate_twice_cex :
    initialize_candidate emptyChain [1] 1 [65] [66] = .error .AccountNotInit
    ∧ initialize_candidate
        (resultState emptyChain (initialize_candidate emptyChain [1] 1 [65] [66]))
        [1] 1 [65] [66] = .error .AccountNotInit
    ∧ resultState emptyChain (initialize_candidate emptyChain [1] 1 [65] [66])
        (candAddr 1 [1]) = none
    ∧ Err.AccountNotInit ≠ Err.AlreadyExists :=
  ⟨rfl, rfl, rfl, by decide⟩

/-- C2 amended: provided a Poll record exists at the derived address of P
and the strings are within their 280-byte bounds, identity A's first
RegisterCandidate for P creates the Candidate record at the address derived
from ("candidate", P, A); A's second RegisterCandidate for P (with any
strings) fails with AlreadyExists, the storage is unchanged, and the stored
Candidate record is exactly the one written by the first call. -/
theorem register_candidate_twice (s : Chain) (A : Pubkey) (pid : Nat)
    (n d n' d' : List Nat) (p : Poll)
    (hp : s (pollAddr pid) = some (Record.poll p))
    (hc : s (candAddr pid A) = none)
    (hn : n.length ≤ 280) (hd : d.length ≤ 280) :
    initialize_candidate s A pid n d =
      .ok (setSlot s (candAddr pid A) (Record.candidate ⟨A, n, d⟩))
    ∧ (∀ t, initialize_candidate s A pid n d = .ok t →
        initialize_candidate t A pid n' d' = .error .AlreadyExists
        ∧ resultState t (initialize_candidate t A pid n' d') = t
        ∧ t (candAddr pid A) = some (Record.candidate ⟨A, n, d⟩)) := by
  have hfirst : initialize_candidate s A pid n d =
      .ok (setSlot s (candAddr pid A) (Record.candidate ⟨A, n, d⟩)) := by
    simp [initialize_candidate, hp, hc, Nat.not_lt.mpr hn, Nat.not_lt.mpr hd]
  refine ⟨hfirst, fun t ht => ?_⟩
  have hts : t = setSlot s (candAddr pid A) (Record.candidate ⟨A, n, d⟩) :=
    (initialize_candidate_ok ht).2.2.2.2
  subst hts
  have h1 : setSlot s (candAddr pid A) (Record.candidate ⟨A, n, d⟩)
      (pollAddr pid) = some (Record.poll p) := by
    rw [setSlot_other _ _ _ _ (pollAddr_ne_candAddr pid pid A), hp]
  have h2 : setSlot s (candAddr pid A) (Record.candidate ⟨A, n, d⟩)
      (candAddr pid A) = some (Record.candidate ⟨A, n, d⟩) :=
    setSlot_same ..
  refine ⟨?_, ?_, h2⟩
  · simp [initialize_candidate, h1, h2]
  · simp [initialize_candidate, h1, h2, resultState]

/-- Witness for the amended C2: with poll 1 present, identity `[2]`
registers once successfully. -/
theorem register_candidate_twice_w :
    pollOneChain (pollAddr 1) = some (Record.poll ⟨1, [], 2, 1000, 2000⟩)
    ∧ pollOneChain (candAddr 1 [2]) = none
    ∧ ([65] : List Nat).length ≤ 280 ∧ ([66] : List Nat).length ≤ 280
    ∧ initialize_candidate pollOneChain [2] 1 [65] [66] =
        .ok (setSlot pollOneChain (candAddr 1 [2])
          (Record.candidate ⟨[2], [65], [66]⟩)) :=
  ⟨rfl, rfl, by decide, by decide,
    (register_candidate_twice pollOneChain [2] 1 [65] [66] [65] [66]
      ⟨1, [], 2, 1000, 2000⟩ rfl rfl (by decide) (by decide)).1⟩

/-- C5 counterexample: with no Poll record at the derived address (the empty
storage), RegisterCandidate does not succeed: it fails with AccountNotInit
and creates no Candidate record. -/
theorem register_candidate_no_poll_cex :
    emptyChain (pollAddr 1) = none
    ∧ initialize_candidate emptyChain [1] 1 [65] [66] = .error .AccountNotInit
    ∧ resultState emptyChain (initialize_candidate emptyChain [1] 1 [65] [66])
        (candAddr 1 [1]) = none :=
  ⟨rfl, rfl, rfl⟩

/-- C5 amended: RegisterCandidate uses P both for address derivation and for
an existence check of the Poll account declared in its context: when no
record exists at the address derived from ("poll", P) the call fails with
AccountNotInit and leaves the storage unchanged; when a Poll record exists
(whatever its fields), the candidate slot is free and the strings are within
bounds, it succeeds and creates the Candidate. -/
theorem register_candidate_requires_poll (s : Chain) (A : Pubkey) (pid : Nat)
    (n d : List Nat) :
    (s (pollAddr pid) = none →
      initialize_candidate s A pid n d = .error .AccountNotInit
      ∧ resultState s (initialize_candidate s A pid n d) = s)
    ∧ (∀ p, s (pollAddr pid) = some (Record.poll p) →
        s (candAddr pid A) = none → n.length ≤ 280 → d.length ≤ 280 →
        initialize_candidate s A pid n d =
          .ok (setSlot s (candAddr pid A) (Record.candidate ⟨A, n, d⟩))) := by
  constructor
  · intro h0
    simp [initialize_candidate, h0, resultState]
  · intro p hp hc hn hd
    simp [initialize_candidate, hp, hc, Nat.not_lt.mpr hn, Nat.not_lt.mpr hd]

/-- Witness for the amended C5 on the empty storage. -/
theorem register_candidate_requires_poll_w :
    emptyChain (pollAddr 1) = none
    ∧ (initialize_candidate emptyChain [1] 1 [65] [66] = .error .AccountNotInit
       ∧ resultState emptyChain
          (initialize_candidate emptyChain [1] 1 [65] [66]) = emptyChain) :=
  ⟨rfl, (register_candidate_requires_poll emptyChain [1] 1 [65] [66]).1 rfl⟩

/-- C1 counterexample: on the empty storage, voter `[1]`'s first CastVote
for poll 1 fails with AccountNotInit rather than succeeding; and in a
populated storage where voter `[7]` has already voted in poll 1, a repeat
CastVote with a dangling candidate reference `[9]` fails with
AccountNotInit, not AlreadyExists. -/
theorem cast_vote_once_cex :
    vote emptyChain [1] 1 [2] = .error .AccountNotInit
    ∧ votedChain (voteAddr 1 [7]) = some (Record.vote ⟨[7], 1, [2]⟩)
    ∧ vote votedChain [7] 1 [9] = .error .AccountNotInit
    ∧ Err.AccountNotInit ≠ Err.AlreadyExists :=
  ⟨rfl, rfl, rfl, by decide⟩

/-- C1 amended: at most one VoteRecord is ever created per (poll id, voter)
pair: when the Poll and the referenced Candidate records exist and V has not
yet voted in P, CastVote by V succeeds and creates the VoteRecord at the
address derived from ("vote", P, V); and in every state whose vote slot for
(P, V) is occupied, every CastVote by V for P with any candidate reference
fails and leaves all state unchanged — with AlreadyExists whenever the poll
and the referenced candidate records exist. -/
theorem cast_vote_once (s : Chain) (pid : Nat) (V C : Pubkey) (p : Poll)
    (c : Candidate)
    (hp : s (pollAddr pid) = some (Record.poll p))
    (hc : s (candAddr pid C) = some (Record.candidate c))
    (hv : s (voteAddr pid V) = none) :
    vote s V pid C =
      .ok (setSlot s (voteAddr pid V) (Record.vote ⟨V, pid, C⟩))
    ∧ (∀ (t : Chain) (r : Record) (C' : Pubkey),
        t (voteAddr pid V) = some r →
        (∃ e, vote t V pid C' = .error e)
        ∧ resultState t (vote t V pid C') = t
        ∧ (∀ p' c', t (pollAddr pid) = some (Record.poll p') →
            t (candAddr pid C') = some (Record.candidate c') →
            vote t V pid C' = .error Err.AlreadyExists)) := by
  refine ⟨by simp [vote, hp, hc, hv], fun t r C' htv => ?_⟩
  have key : ∃ e, vote t V pid C' = .error e := by
    rcases h1 : t (pollAddr pid) with _ | r1
    · exact ⟨.AccountNotInit, by simp [vote, h1]⟩
    · cases r1 with
      | poll p1 =>
        rcases h2 : t (candAddr pid C') with _ | r2
        · exact ⟨.AccountNotInit, by simp [vote, h1, h2]⟩
        · cases r2 with
          | candidate c2 => exact ⟨.AlreadyExists, by simp [vote, h1, h2, htv]⟩
          | poll p2 => exact ⟨.DiscriminatorMismatch, by simp [vote, h1, h2]⟩
          | vote v2 => exact ⟨.DiscriminatorMismatch, by simp [vote, h1, h2]⟩
      | candidate c1 => exact ⟨.DiscriminatorMismatch, by simp [vote, h1]⟩
      | vote v1 => exact ⟨.DiscriminatorMismatch, by simp [vote, h1]⟩
  obtain ⟨e, he⟩ := key
  refine ⟨⟨e, he⟩, by simp [resultState, he], ?_⟩
  intro p' c' hp' hc'
  simp [vote, hp', hc', htv]

/-- Witness for the amended C1: voter `[7]` votes for the existing candidate
`[2]` in poll 1. -/
theorem cast_vote_once_w :
    candChain (pollAddr 1) = some (Record.poll ⟨1, [], 2, 1000, 2000⟩)
    ∧ candChain (candAddr 1 [2]) = some (Record.candidate ⟨[2], [65], [66]⟩)
    ∧ candChain (voteAddr 1 [7]) = none
    ∧ vote candChain [7] 1 [2] =
        .ok (setSlot candChain (voteAddr 1 [7]) (Record.vote ⟨[7], 1, [2]⟩)) :=
  ⟨rfl, rfl, rfl,
    (cast_vote_once candChain 1 [7] [2] ⟨1, [], 2, 1000, 2000⟩
      ⟨[2], [65], [66]⟩ rfl rfl rfl).1⟩

/-- C6 counterexample: in a storage holding poll 1 but no Candidate record
for reference `[9]`, a fresh voter's CastVote is not accepted: it fails with
AccountNotInit and no VoteRecord is created. -/
theorem cast_vote_missing_candidate_cex :
    pollOneChain (candAddr 1 [9]) = none
    ∧ vote pollOneChain [1] 1 [9] = .error .AccountNotInit
    ∧ resultState pollOneChain (vote pollOneChain [1] 1 [9])
        (voteAddr 1 [1]) = none :=
  ⟨rfl, rfl, rfl⟩

/-- C6 amended: CastVote does validate the caller-supplied candidate
reference against existence: when no Candidate record exists at the address
derived from ("candidate", P, C), the vote is rejected with AccountNotInit,
the storage is unchanged and no VoteRecord is created. -/
theorem cast_vote_requires_candidate (s : Chain) (V C : Pubkey) (pid : Nat)
    (p : Poll)
    (hp : s (pollAddr pid) = some (Record.poll p))
    (hc : s (candAddr pid C) = none) :
    vote s V pid C = .error .AccountNotInit
    ∧ resultState s (vote s V pid C) = s := by
  simp [vote, hp, hc, resultState]

/-- Witness for the amended C6 in the storage holding only poll 1. -/
theorem cast_vote_requires_candidate_w :
    pollOneChain (pollAddr 1) = some (Record.poll ⟨1, [], 2, 1000, 2000⟩)
    ∧ pollOneChain (candAddr 1 [9]) = none
    ∧ (vote pollOneChain [1] 1 [9] = .error .AccountNotInit
       ∧ resultState pollOneChain (vote pollOneChain [1] 1 [9]) =
          pollOneChain) :=
  ⟨rfl, rfl,
    cast_vote_requires_candidate pollOneChain [1] [9] 1
      ⟨1, [], 2, 1000, 2000⟩ rfl rfl⟩

/-- C7: no RegisterCandidate or CastVote invocation, succeeding or failing,
changes the record stored at any poll address: the Poll record's fields are
exactly what they were, so only CreatePoll ever writes Poll slots. -/
theorem poll_records_frame (s : Chain) (sg cid : Pubkey) (pid q : Nat)
    (n d : List Nat) :
    resultState s (initialize_candidate s sg pid n d) (pollAddr q) =
      s (pollAddr q)
    ∧ resultState s (vote s sg pid cid) (pollAddr q) = s (pollAddr q) := by
  constructor
  · rcases h : initialize_candidate s sg pid n d with e | t
    · simp [resultState]
    · simp only [resultState]
      rw [(initialize_candidate_ok h).2.2.2.2,
        setSlot_other _ _ _ _ (pollAddr_ne_candAddr q pid sg)]
  · rcases h : vote s sg pid cid with e | t
    · simp [resultState]
    · simp only [resultState]
      rw [(vote_ok h).2.2.2,
        setSlot_other _ _ _ _ (pollAddr_ne_voteAddr q pid sg)]

/-- C9: the outcome of CastVote never depends on the stored start_time and
end_time of the referenced Poll: replacing them by any values yields the
same verdict — the same error, or success writing the same VoteRecord — the
results differing only in the rewritten Poll slot. No handler reads these
fields back for validation. -/
theorem cast_vote_ignores_times (s : Chain) (p : Poll) (pid a b : Nat)
    (V C : Pubkey) (hp : s (pollAddr pid) = some (Record.poll p)) :
    vote (setSlot s (pollAddr pid)
        (Record.poll ⟨p.poll_id, p.description, p.candidates, a, b⟩)) V pid C
      = Except.map
          (fun t => setSlot t (pollAddr pid)
            (Record.poll ⟨p.poll_id, p.description, p.candidates, a, b⟩))
          (vote s V pid C) := by
  have e1 : setSlot s (pollAddr pid)
      (Record.poll ⟨p.poll_id, p.description, p.candidates, a, b⟩)
      (pollAddr pid) =
      some (Record.poll ⟨p.poll_id, p.description, p.candidates, a, b⟩) :=
    setSlot_same ..
  have e2 : setSlot s (pollAddr pid)
      (Record.poll ⟨p.poll_id, p.description, p.candidates, a, b⟩)
      (candAddr pid C) = s (candAddr pid C) :=
    setSlot_other _ _ _ _ (Ne.symm (pollAddr_ne_candAddr pid pid C))
  have e3 : setSlot s (pollAddr pid)
      (Record.poll ⟨p.poll_id, p.description, p.candidates, a, b⟩)
      (voteAddr pid V) = s (voteAddr pid V) :=
    setSlot_other _ _ _ _ (Ne.symm (pollAddr_ne_voteAddr pid pid V))
  rcases h2 : s (candAddr pid C) with _ | r2
  · simp [vote, e1, e2, e3, hp, h2, Except.map]
  · cases r2 with
    | candidate c =>
      rcases h3 : s (voteAddr pid V) with _ | r3
      · simp only [vote, e1, e2, e3, hp, h2, h3, Except.map]
        exact congrArg Except.ok
          (setSlot_comm s (pollAddr pid) (voteAddr pid V) _ _
            (pollAddr_ne_voteAddr pid pid V))
      · simp [vote, e1, e2, e3, hp, h2, h3, Except.map]
    | poll p2 => simp [vote, e1, e2, e3, hp, h2, Except.map]
    | vote v2 => simp [vote, e1, e2, e3, hp, h2, Except.map]

/-- Witness for C9: rewriting poll 1's time window to [0, 0] does not change
the verdict of voter `[1]`'s vote for candidate `[2]`. -/
theorem cast_vote_ignores_times_w :
    candChain (pollAddr 1) = some (Record.poll ⟨1, [], 2, 1000, 2000⟩)
    ∧ vote (setSlot candChain (pollAddr 1)
          (Record.poll ⟨1, [], 2, 0, 0⟩)) [1] 1 [2]
      = Except.map
          (fun t => setSlot t (pollAddr 1) (Record.poll ⟨1, [], 2, 0, 0⟩))
          (vote candChain [1] 1 [2]) :=
  ⟨rfl, cast_vote_ignores_times candChain ⟨1, [], 2, 1000, 2000⟩ 1 0 0
    [1] [2] rfl⟩

/-- C10: record contents always agree with the key embedded in the record's
derived address: the invariant `goodState` holds of the empty storage and is
preserved by every operation (poll ids being u64 values), every successful
RegisterCandidate stores `candidate_id` equal to the caller identity in the
candidate seeds, and every successful CastVote stores `voter` equal to the
caller identity and `poll_id` equal to the poll id in the vote seeds. -/
theorem records_agree_with_keys :
    goodState emptyChain
    ∧ (∀ s sg pid d cand st et, goodState s →
        goodState (resultState s (initialize_poll s sg pid d cand st et)))
    ∧ (∀ s sg pid n d, pid < 2 ^ 64 → goodState s →
        goodState (resultState s (initialize_candidate s sg pid n d)))
    ∧ (∀ s sg pid cid, pid < 2 ^ 64 → goodState s →
        goodState (resultState s (vote s sg pid cid)))
    ∧ (∀ s (sg : Pubkey) pid n d t,
        initialize_candidate s sg pid n d = .ok t →
        t (candAddr pid sg) = some (Record.candidate ⟨sg, n, d⟩))
    ∧ (∀ s (sg cid : Pubkey) pid t, vote s sg pid cid = .ok t →
        t (voteAddr pid sg) = some (Record.vote ⟨sg, pid, cid⟩)) := by
  refine ⟨⟨fun pid o c _ h => by simp [emptyChain] at h,
      fun pid v vr _ h => by simp [emptyChain] at h⟩, ?_, ?_, ?_, ?_, ?_⟩
  · intro s sg pid d cand st et hg
    rcases h : initialize_poll s sg pid d cand st et with e | t
    · simpa [resultState] using hg
    · simp only [resultState]
      rw [(initialize_poll_ok h).2]
      exact goodState_setSlot_pollAddr s pid _ hg
  · intro s sg pid n d hpid hg
    rcases h : initialize_candidate s sg pid n d with e | t
    · simpa [resultState] using hg
    · simp only [resultState]
      rw [(initialize_candidate_ok h).2.2.2.2]
      exact goodState_setSlot_candAddr s pid sg n d hpid hg
  · intro s sg pid cid hpid hg
    rcases h : vote s sg pid cid with e | t
    · simpa [resultState] using hg
    · simp only [resultState]
      rw [(vote_ok h).2.2.2]
      exact goodState_setSlot_voteAddr s pid sg cid hpid hg
  · intro s sg pid n d t h
    rw [(initialize_candidate_ok h).2.2.2.2, setSlot_same]
  · intro s sg cid pid t h
    rw [(vote_ok h).2.2.2, setSlot_same]

/-- Witness for C10: the invariant holds of the empty storage and of the
state a vote request produces from it. -/
theorem records_agree_with_keys_w :
    (1 : Nat) < 2 ^ 64
    ∧ goodState (resultState emptyChain (vote emptyChain [7] 1 [2])) :=
  ⟨by decide, records_agree_with_keys.2.2.2.1 emptyChain [7] 1 [2]
    (by decide) records_agree_with_keys.1⟩

end VotingModel
